import Mathlib

/-!
Verification of the text-toxicity classification pipeline of this repository.

The embedding below transcribes, into Lean definitions:
  * the keyword fallback and classifier wrapper `checkToxicityWithModel`
    (src/src/App.tsx and src/src/components/YouTubeComments.tsx),
  * the tokenizer and score extraction of `loadAndPredict`
    (src/unnamed/part_000, the model module),
  * the sequential batch analysis loop `loadComments`
    (src/src/components/YouTubeComments.tsx),
  * a small event model of the lazy model-loading protocol and of the
    tensor allocations performed during one inference call.

Model outcomes (the resolution or rejection of the `loadAndPredict`
promise) are passed explicitly as an `Except` value; scores are rationals.
-/

/-- Result record returned by `checkToxicityWithModel`:
`{ isToxic: boolean, toxicityScore: number }`. -/
structure ClassificationResult where
  isToxic : Bool
  toxicityScore : ℚ
deriving DecidableEq

/-- The fixed fallback toxic-word list, identical in src/src/App.tsx and
src/src/components/YouTubeComments.tsx. -/
def TOXIC_WORDS : List String :=
  ["spam", "scam", "hate", "idiot", "stupid", "dumb", "fool",
   "jerk", "racist", "kill", "die", "attack", "threat", "abuse",
   "offensive", "violent", "nasty", "horrible", "terrible"]

/-- Predicate `listStartsWith w l`: holds when `w` is an initial segment of `l`
(character-list version of the check underlying JS `String.includes`). -/
def listStartsWith : List Char → List Char → Bool
  | [], _ => true
  | _ :: _, [] => false
  | c :: cs, d :: ds => c == d && listStartsWith cs ds

/-- Predicate `containsSub w l`: holds when `w` occurs contiguously inside `l`:
the character-level meaning of JS `l.includes(w)`. -/
def containsSub (w : List Char) : List Char → Bool
  | [] => listStartsWith w []
  | c :: cs => listStartsWith w (c :: cs) || containsSub w cs

/-- Function `checkToxicityFallback` from src/src/App.tsx (and the identical copy in
src/src/components/YouTubeComments.tsx): lower-case the text, then test
whether any entry of `TOXIC_WORDS` occurs as a substring. -/
def checkToxicityFallback (text : String) : Bool :=
  let lowerText := text.data.map Char.toLower
  TOXIC_WORDS.any fun w => containsSub w.data lowerText

/-- Function `checkToxicityWithModel` from src/src/components/YouTubeComments.tsx.
The argument `outcome` is the outcome of `await loadAndPredict(text)`:
`.ok s` when the promise resolves with score `s`, `.error ()` when it
rejects. On success the 50-threshold is applied; on rejection the catch
branch returns the keyword fallback with score 0. -/
def checkToxicityWithModel (outcome : Except Unit ℚ) (text : String) :
    ClassificationResult :=
  match outcome with
  | .ok toxicityScore => { isToxic := toxicityScore > 50, toxicityScore := toxicityScore }
  | .error _ => { isToxic := checkToxicityFallback text, toxicityScore := 0 }

/-- Function `checkToxicityWithModel` from src/src/App.tsx. It first consults the
`model` readiness flag (set by `loadModel` on mount, left false on load
failure): when the flag is false it returns the fallback result without
invoking the model module at all. The second component records whether
`loadAndPredict` was invoked. -/
def appCheckToxicityWithModel (modelReady : Bool) (outcome : Except Unit ℚ)
    (text : String) : ClassificationResult × Bool :=
  if modelReady then (checkToxicityWithModel outcome text, true)
  else ({ isToxic := checkToxicityFallback text, toxicityScore := 0 }, false)

/-- Score extraction of `loadAndPredict` (src/unnamed/part_000): the value at
index 1 of the output vector, multiplied by 100. -/
def loadAndPredictScore (dataArray : List ℚ) : ℚ :=
  dataArray.getD 1 0 * 100

theorem listStartsWith_iff (w : List Char) :
    ∀ l : List Char, listStartsWith w l = true ↔ ∃ r, l = w ++ r := by
  induction w with
  | nil =>
    intro l
    simp [listStartsWith]
  | cons c cs ih =>
    intro l
    cases l with
    | nil =>
      simp [listStartsWith]
    | cons d ds =>
      simp only [listStartsWith, Bool.and_eq_true, beq_iff_eq, ih ds,
        List.cons_append, List.cons_eq_cons]
      constructor
      · rintro ⟨hcd, r, hr⟩
        exact ⟨r, hcd.symm, hr⟩
      · rintro ⟨r, hcd, hr⟩
        exact ⟨hcd.symm, r, hr⟩

theorem containsSub_iff (w : List Char) :
    ∀ l : List Char, containsSub w l = true ↔ ∃ l₁ l₂, l = l₁ ++ (w ++ l₂) := by
  intro l
  induction l with
  | nil =>
    simp only [containsSub, listStartsWith_iff]
    constructor
    · rintro ⟨r, hr⟩
      exact ⟨[], r, hr⟩
    · rintro ⟨l₁, l₂, h⟩
      rcases List.append_eq_nil.mp h.symm with ⟨h₁, h₂⟩
      exact ⟨l₂, by simp [h₁] at h ⊢; exact h⟩
  | cons c cs ih =>
    simp only [containsSub, Bool.or_eq_true, listStartsWith_iff, ih]
    constructor
    · rintro (⟨r, hr⟩ | ⟨l₁, l₂, h⟩)
      · exact ⟨[], r, by simpa using hr⟩
      · exact ⟨c :: l₁, l₂, by simp [h]⟩
    · rintro ⟨l₁, l₂, h⟩
      cases l₁ with
      | nil => exact Or.inl ⟨l₂, by simpa using h⟩
      | cons a l₁ =>
        simp only [List.cons_append, List.cons_eq_cons] at h
        exact Or.inr ⟨l₁, l₂, h.2⟩

/-- C1: whenever the model promise rejects, the classifier returns the
keyword-fallback verdict with `toxicityScore = 0` (so the error never
reaches the caller), in both the comments-page classifier and the App
classifier; and the fallback verdict is true exactly when some entry of
`TOXIC_WORDS` occurs as a substring of the lower-cased input. -/
theorem checkToxicityWithModel_error_fallback (text : String) :
    checkToxicityWithModel (.error ()) text =
      { isToxic := checkToxicityFallback text, toxicityScore := 0 } ∧
    appCheckToxicityWithModel true (.error ()) text =
      ({ isToxic := checkToxicityFallback text, toxicityScore := 0 }, true) ∧
    (checkToxicityFallback text = true ↔
      ∃ w ∈ TOXIC_WORDS, ∃ l₁ l₂,
        text.data.map Char.toLower = l₁ ++ (w.data ++ l₂)) := by
  refine ⟨rfl, rfl, ?_⟩
  simp only [checkToxicityFallback, List.any_eq_true, containsSub_iff]

/-- Modelled from the spec: the `DICTIONARY` module imported by
src/unnamed/part_000 (it does `import * as DICTIONARY from the dictionary module`) is not
under src/. Per the spec it supplies three reserved control-token integers
`START`, `UNKNOWN`, `PAD` and a static word-to-id table `LOOKUP`
(exact-string lookup, signalling "not found" for absent keys). -/
structure Dictionary where
  START : Nat
  UNKNOWN : Nat
  PAD : Nat
  LOOKUP : String → Option Nat

/-- A concrete dictionary instance used to evaluate the pipeline on
closed inputs: control tokens distinct, a few vocabulary words, and no
entry for the empty string (vocabulary keys are lower-cased word forms). -/
def sampleDictionary : Dictionary where
  START := 1
  UNKNOWN := 2
  PAD := 0
  LOOKUP := fun w => if w = "you" then some 3 else if w = "i" then some 4 else none

/-- Constant `ENCODING_LENGTH` from src/unnamed/part_000. -/
def ENCODING_LENGTH : Nat := 21

/-- JS `\w` (as used in the regex of `loadAndPredict`): ASCII alphanumeric
or underscore. -/
def jsWordChar (c : Char) : Bool := c.isAlphanum || c == '_'

/-- JS `\s`, restricted to its ASCII members: space, tab, line feed,
carriage return, vertical tab, form feed. -/
def jsSpaceChar (c : Char) : Bool :=
  c == ' ' || c == '\t' || c == '\n' || c == '\r' ||
  c == Char.ofNat 11 || c == Char.ofNat 12

/-- The normalization step of `loadAndPredict` (src/unnamed/part_000):
`inputText.toLowerCase().replace(/[^\w\s]/g, ' ')` — lower-case every
character, then replace each character that is neither `\w` nor `\s`
with a space. -/
def jsNormalize (text : String) : List Char :=
  (text.data.map Char.toLower).map fun c =>
    if jsWordChar c || jsSpaceChar c then c else ' '

/-- Splitting a character list at every character satisfying `p`,
preserving empty chunks, and yielding `[[]]` on empty input: the
character-level semantics of JS `String.split` with a one-character
separator (instantiated at `(· == sep)`). -/
def splitOnPred (p : Char → Bool) : List Char → List (List Char)
  | [] => [[]]
  | c :: cs =>
    if p c then [] :: splitOnPred p cs
    else
      match splitOnPred p cs with
      | [] => [[c]]
      | r :: rs => (c :: r) :: rs

/-- The word sequence of `loadAndPredict`: normalized text split with
`.split(' ')`, i.e. at each space character. -/
def jsWords (text : String) : List String :=
  (splitOnPred (fun c => c == ' ') (jsNormalize text)).map fun cs => String.mk cs

/-- Function `tokenize` from src/unnamed/part_000: START, then for each word its
dictionary id or UNKNOWN, then PAD while the length is below
`ENCODING_LENGTH`. -/
def tokenize (d : Dictionary) (wordArray : List String) : List Nat :=
  let base := d.START :: wordArray.map fun w => (d.LOOKUP w).getD d.UNKNOWN
  base ++ List.replicate (ENCODING_LENGTH - base.length) d.PAD

/-- The encoding `loadAndPredict` passes to `model.predict`: the word
sequence truncated to the first 20 words (`.slice(0, 20)`), tokenized. -/
def encode (d : Dictionary) (text : String) : List Nat :=
  tokenize d ((jsWords text).take 20)

/-- C2: for every dictionary and every input text the encoding has length
exactly 21, and it is START followed by the id-or-UNKNOWN codes of the
first at most 20 words followed by PAD tokens filling the remainder
(words beyond the 20th are ignored by the `take 20`). -/
theorem encode_length_eq_21 (d : Dictionary) (text : String) :
    (encode d text).length = 21 ∧
    encode d text =
      d.START :: ((((jsWords text).take 20).map fun w => (d.LOOKUP w).getD d.UNKNOWN)
        ++ List.replicate (20 - ((jsWords text).take 20).length) d.PAD) := by
  have hlen : ((jsWords text).take 20).length ≤ 20 := by
    simp [List.length_take_le 20 (jsWords text)]
  have hcount :
      ENCODING_LENGTH -
        (d.START :: (((jsWords text).take 20).map fun w =>
          (d.LOOKUP w).getD d.UNKNOWN)).length =
      20 - ((jsWords text).take 20).length := by
    simp only [List.length_cons, List.length_map, ENCODING_LENGTH]
    omega
  constructor
  · simp only [encode, tokenize, List.length_append, List.length_cons,
      List.length_map, List.length_replicate, ENCODING_LENGTH]
    omega
  · simp only [encode, tokenize]
    rw [hcount, List.cons_append]

/-- Definition following the words of the spec for the normalization step of
C6: replace every character that is not alphanumeric or whitespace with a
single space (note: no underscore exemption, unlike the `\w` class used by the code). -/
def specNormalizeC6 (text : String) : List Char :=
  (text.data.map Char.toLower).map fun c =>
    if c.isAlphanum || jsSpaceChar c then c else ' '

/-- Definition following the words of the spec for the word-splitting step of
C6: the normalized text split on whitespace, every whitespace character
acting as a word separator (unlike the split on the space character performed by the code). -/
def specWordsC6 (text : String) : List String :=
  (splitOnPred jsSpaceChar (specNormalizeC6 text)).map fun cs => String.mk cs

/-- C6 counterexample: on the input "a_b\nc" the word sequence computed by the code is
the single word "a_b\nc" (the underscore is kept by `\w` and the newline
does not separate, because the split is on the space character only),
while the normalization-and-split described by the claim yields the words
"a", "b", "c". -/
theorem jsWords_spec_counterexample :
    jsWords "a_b\nc" ≠ specWordsC6 "a_b\nc" ∧
    jsWords "a_b\nc" = ["a_b\nc"] ∧
    specWordsC6 "a_b\nc" = ["a", "b", "c"] := by decide

/-- C6 amended: normalization lower-cases the input and replaces every
character that is neither a word character (ASCII alphanumeric or
underscore) nor whitespace with a single space, and the normalized text
is split on the space character only (other whitespace characters do not
act as separators), with empty tokens from consecutive separators
preserved and failing vocabulary lookup. Punctuation still becomes a
separating space ("a,b" gives the two words "a" and "b"), a newline does
not ("a\nb" stays one word), and consecutive spaces give an empty token
("a  b"). -/
theorem jsWords_amended (text : String) (d : Dictionary)
    (hd : d.LOOKUP "" = none) :
    jsNormalize text = text.data.map (fun c =>
      if jsWordChar (Char.toLower c) || jsSpaceChar (Char.toLower c)
      then Char.toLower c else ' ') ∧
    jsWords text =
      (splitOnPred (fun c => c == ' ') (jsNormalize text)).map
        (fun cs => String.mk cs) ∧
    jsWords "a,b" = ["a", "b"] ∧
    jsWords "a\nb" = ["a\nb"] ∧
    jsWords "a  b" = ["a", "", "b"] ∧
    (d.LOOKUP "").getD d.UNKNOWN = d.UNKNOWN := by
  refine ⟨?_, rfl, by decide, by decide, by decide, by rw [hd]; rfl⟩
  simp only [jsNormalize, List.map_map]
  rfl

/-- C6 amended witness at a concrete input and dictionary. -/
theorem jsWords_amended_witness :
    jsWords "a,b" = ["a", "b"] ∧
    (sampleDictionary.LOOKUP "").getD sampleDictionary.UNKNOWN =
      sampleDictionary.UNKNOWN :=
  ⟨(jsWords_amended "a,b" sampleDictionary (by decide)).2.2.1,
   (jsWords_amended "a,b" sampleDictionary (by decide)).2.2.2.2.2⟩

/-- C5 counterexample: the encoding of the empty string is not
START followed by twenty PADs; it is START, UNKNOWN, then nineteen PADs,
because `"".split(' ')` yields one empty token, which fails vocabulary
lookup and is encoded as UNKNOWN. -/
theorem encode_empty_counterexample :
    encode sampleDictionary "" ≠
      sampleDictionary.START :: List.replicate 20 sampleDictionary.PAD ∧
    encode sampleDictionary "" =
      sampleDictionary.START :: sampleDictionary.UNKNOWN ::
        List.replicate 19 sampleDictionary.PAD := by decide

/-- C5 amended: for the empty-string input the encoding is one START, one
UNKNOWN (from the single empty token produced by the split, absent from
the vocabulary), then nineteen PADs; and classification of "" with the
model unavailable returns `{isToxic := false, toxicityScore := 0}`, since
no fallback keyword matches the empty text. -/
theorem encode_empty_amended (d : Dictionary) (hd : d.LOOKUP "" = none) :
    encode d "" = d.START :: d.UNKNOWN :: List.replicate 19 d.PAD ∧
    checkToxicityWithModel (.error ()) "" =
      { isToxic := false, toxicityScore := 0 } := by
  constructor
  · have h1 : jsWords "" = [""] := rfl
    simp only [encode, h1, List.take, tokenize, List.map, hd,
      Option.getD_none, ENCODING_LENGTH, List.length_cons,
      List.length_singleton]
    rfl
  · decide

/-- C5 amended witness at the concrete sample dictionary. -/
theorem encode_empty_amended_witness :
    encode sampleDictionary "" =
      sampleDictionary.START :: sampleDictionary.UNKNOWN ::
        List.replicate 19 sampleDictionary.PAD :=
  (encode_empty_amended sampleDictionary (by decide)).1

/-- C4: whenever classification obtains a genuine model output vector
(`dataArray`, of length at least 2), `toxicityScore` is the value at
index 1 of the vector multiplied by 100, `isToxic` holds exactly when the
score is strictly greater than 50, and a score of exactly 50 yields
`isToxic = false`. -/
theorem score_threshold (dataArray : List ℚ) (h : 1 < dataArray.length)
    (text : String) :
    (checkToxicityWithModel (.ok (loadAndPredictScore dataArray)) text).toxicityScore
      = dataArray[1] * 100 ∧
    ((checkToxicityWithModel (.ok (loadAndPredictScore dataArray)) text).isToxic = true
      ↔ loadAndPredictScore dataArray > 50) ∧
    (loadAndPredictScore dataArray = 50 →
      (checkToxicityWithModel (.ok (loadAndPredictScore dataArray)) text).isToxic
        = false) := by
  refine ⟨?_, ?_, ?_⟩
  · simp [checkToxicityWithModel, loadAndPredictScore, List.getD,
      List.getElem?_eq_getElem h]
  · simp [checkToxicityWithModel]
  · intro h50
    simp [checkToxicityWithModel, h50]

/-- C4 witness: an output vector whose index-1 entry is 1/2 gives a score
of exactly 50 and a non-toxic verdict. -/
theorem score_threshold_witness :
    (checkToxicityWithModel
      (.ok (loadAndPredictScore [1/2, 1/2])) "hello").isToxic = false :=
  (score_threshold [1/2, 1/2] (by decide) "hello").2.2
    (by norm_num [loadAndPredictScore, List.getD])

/-- Events of the lazy model-loading protocol of `loadAndPredict`
(src/unnamed/part_000). A `start` event is one classification call
executing `if (model === undefined) { model = await tf.loadLayersModel(...) }`
up to its suspension point: when the handle is already set the call skips
loading, otherwise it starts a load. A `finishOk` event is a pending
promise of a pending load resolving (the assignment to `model` runs); `finishErr` is
it rejecting (the assignment never runs, so the handle stays unset). -/
inductive LoadEvent where
  | start
  | finishOk
  | finishErr
deriving DecidableEq

/-- State of the model handle: whether `model` is set, how many load
promises are in flight, and how many loads were started in total. -/
structure LoadState where
  loaded : Bool
  inFlight : Nat
  loads : Nat
deriving DecidableEq

/-- One step of the loading protocol, transcribed from the
`model === undefined` check and the `await`ed assignment. -/
def loadStep (s : LoadState) : LoadEvent → LoadState
  | .start =>
      if s.loaded then s
      else { s with inFlight := s.inFlight + 1, loads := s.loads + 1 }
  | .finishOk =>
      if s.inFlight = 0 then s
      else { loaded := true, inFlight := s.inFlight - 1, loads := s.loads }
  | .finishErr =>
      if s.inFlight = 0 then s
      else { s with inFlight := s.inFlight - 1 }

/-- Running the protocol from the initial state (`let model = undefined`,
no pending load, no load performed). -/
def loadRun (events : List LoadEvent) : LoadState :=
  events.foldl loadStep { loaded := false, inFlight := 0, loads := 0 }

/-- C7 counterexample: two classification calls that both reach the
`model === undefined` check before the first load completes each trigger
their own load — two loads are performed, refuting "at most one load is
ever performed for the process lifetime". -/
theorem loadRun_concurrent_counterexample :
    (loadRun [.start, .start]).loads = 2 ∧
    (loadRun [.start, .start]).inFlight = 2 := by decide

/-- C7 amended: the memoization only takes effect once a load has
completed and set the handle: from any state with the handle set, no
sequence of further calls or completions ever starts another load (so
repeated calls after the first successful load never duplicate it), but
calls issued before the first load completes are not protected. -/
theorem loadStep_no_load_after_loaded (events : List LoadEvent)
    (s : LoadState) (h : s.loaded = true) :
    (events.foldl loadStep s).loads = s.loads ∧
    (events.foldl loadStep s).loaded = true := by
  induction events generalizing s with
  | nil => exact ⟨rfl, h⟩
  | cons e es ih =>
    have hstep : (loadStep s e).loads = s.loads ∧ (loadStep s e).loaded = true := by
      cases e with
      | start => simp [loadStep, h]
      | finishOk =>
        by_cases h0 : s.inFlight = 0 <;> simp [loadStep, h0, h]
      | finishErr =>
        by_cases h0 : s.inFlight = 0 <;> simp [loadStep, h0, h]
    have := ih (loadStep s e) hstep.2
    exact ⟨by simpa [hstep.1] using this.1, this.2⟩

/-- C7 amended witness: from a loaded state, a further call starts no
load. -/
theorem loadStep_no_load_after_loaded_witness :
    (([LoadEvent.start]).foldl loadStep
      { loaded := true, inFlight := 0, loads := 1 }).loads = 1 :=
  (loadStep_no_load_after_loaded [LoadEvent.start]
    { loaded := true, inFlight := 0, loads := 1 } rfl).1

/-- C8 counterexample: a load failure leaves the handle unset (the
rejected `await` means the assignment `model = ...` never runs), so the
next classification call through the model module attempts a second load
— refuting "every subsequent classification call uses the keyword
fallback without attempting to load the model again". -/
theorem loadRun_retry_after_failure_counterexample :
    (loadRun [.start, .finishErr]).loads = 1 ∧
    (loadRun [.start, .finishErr]).loaded = false ∧
    (loadRun [.start, .finishErr, .start]).loads = 2 := by decide

/-- C8 amended: the model module itself records nothing on a load
failure — the handle stays unset and any later classification call
through it starts the load again; only the App records the failure once
(its `model` readiness flag stays false), and every App classification
call made with the flag false returns the keyword-fallback result with
score 0 without invoking the model module at all. -/
theorem load_failure_behavior (s : LoadState) (h : s.loaded = false)
    (outcome : Except Unit ℚ) (text : String) :
    (loadStep s .start).loads = s.loads + 1 ∧
    appCheckToxicityWithModel false outcome text =
      ({ isToxic := checkToxicityFallback text, toxicityScore := 0 }, false) := by
  constructor
  · simp [loadStep, h]
  · rfl

/-- C8 amended witness: after a failed load the next call through the
model module loads again, and the App with its flag down uses the
fallback without invoking the model. -/
theorem load_failure_behavior_witness :
    (loadStep (loadRun [.start, .finishErr]) .start).loads =
      (loadRun [.start, .finishErr]).loads + 1 ∧
    appCheckToxicityWithModel false (.ok 99) "hello" =
      ({ isToxic := checkToxicityFallback "hello", toxicityScore := 0 }, false) :=
  load_failure_behavior (loadRun [.start, .finishErr]) (by decide) (.ok 99) "hello"

/-- Tensor operations performed by one `loadAndPredict` call
(src/unnamed/part_000): `tokenize` ends with `tf.tensor2d([returnArray])`
(allocating the input tensor), `model.predict` allocates the output
tensor, and `results.dataSync()` extracts the values. No `dispose` or
`tf.tidy` call appears anywhere in the function, so no release operation
occurs. -/
inductive TensorOp where
  | alloc (name : String)
  | extract
  | dispose (name : String)
deriving DecidableEq

/-- Whether an operation releases a tensor. -/
def isDisposeOp : TensorOp → Bool
  | .dispose _ => true
  | _ => false

/-- Whether an operation allocates a tensor. -/
def isAllocOp : TensorOp → Bool
  | .alloc _ => true
  | _ => false

/-- The operation trace of one successful `loadAndPredict` call,
transcribed from the body of the function. -/
def loadAndPredictTensorOps : List TensorOp :=
  [.alloc "input", .alloc "output", .extract]

/-- C9 (code bug evidence): a `loadAndPredict` call allocates two tensors
and performs no release at all — in particular none after the extraction
— so repeated classification calls grow tensor memory. -/
theorem loadAndPredict_never_disposes :
    (loadAndPredictTensorOps.filter isDisposeOp).length = 0 ∧
    (loadAndPredictTensorOps.filter isAllocOp).length = 2 ∧
    loadAndPredictTensorOps.getLast? = some TensorOp.extract := by decide

/-- A fetched comment record (src/unnamed/part_001, `YouTubeComment`). -/
structure YouTubeComment where
  id : String
  text : String
  author : String
  publishedAt : String
  likeCount : Nat
deriving DecidableEq

/-- Structure `AnalyzedComment` from src/src/components/YouTubeComments.tsx: a
comment extended with the classification fields; `toxicityScore` is
optional because not-yet-analyzed items carry no score. -/
structure AnalyzedComment extends YouTubeComment where
  isToxic : Bool
  toxicityScore : Option ℚ
  isAnalyzing : Bool
deriving DecidableEq

/-- The `{...comment, isAnalyzing: true, isToxic: false}` spread used by
`loadComments` for items whose analysis has not completed. -/
def pendingItem (c : YouTubeComment) : AnalyzedComment :=
  { toYouTubeComment := c, isToxic := false, toxicityScore := none,
    isAnalyzing := true }

/-- The record pushed onto `analyzedComments` after the classification
of a comment resolves: the comment with the fields of the result and
`isAnalyzing: false`. The `oracle` argument supplies, per text, the
outcome of the `loadAndPredict` call for that comment. -/
def analyzedItem (oracle : String → Except Unit ℚ) (c : YouTubeComment) :
    AnalyzedComment :=
  { toYouTubeComment := c,
    isToxic := (checkToxicityWithModel (oracle c.text) c.text).isToxic,
    toxicityScore := some (checkToxicityWithModel (oracle c.text) c.text).toxicityScore,
    isAnalyzing := false }

/-- The `for (const comment of fetchedComments)` loop of `loadComments`:
each iteration classifies one comment, appends the analyzed record to
`done`, and emits the snapshot `[...analyzedComments,
...fetchedComments.slice(analyzedComments.length).map(pending)]` via
`setComments`. Returns the list of emitted snapshots in order. -/
def loadCommentsLoop (oracle : String → Except Unit ℚ)
    (all : List YouTubeComment) (done : List AnalyzedComment) :
    List YouTubeComment → List (List AnalyzedComment)
  | [] => []
  | c :: cs =>
    ((done ++ [analyzedItem oracle c]) ++
        (all.drop (done ++ [analyzedItem oracle c]).length).map pendingItem) ::
      loadCommentsLoop oracle all (done ++ [analyzedItem oracle c]) cs

/-- The snapshots emitted from inside the analysis loop (one per
comment), starting from an empty `analyzedComments`. -/
def loadCommentsProgress (oracle : String → Except Unit ℚ)
    (comments : List YouTubeComment) : List (List AnalyzedComment) :=
  loadCommentsLoop oracle comments [] comments

/-- All state updates `loadComments` performs after the fetch resolves:
the initial `setComments` marking every item as analyzing, then the
in-loop snapshots. -/
def loadCommentsEmits (oracle : String → Except Unit ℚ)
    (comments : List YouTubeComment) : List (List AnalyzedComment) :=
  comments.map pendingItem :: loadCommentsProgress oracle comments

/-- The snapshot in which the first `k` items carry their completed
results and the rest are still marked analyzing. -/
def snapshotAt (oracle : String → Except Unit ℚ)
    (all : List YouTubeComment) (k : Nat) : List AnalyzedComment :=
  (all.take k).map (analyzedItem oracle) ++ (all.drop k).map pendingItem

theorem loadCommentsLoop_eq (oracle : String → Except Unit ℚ) :
    ∀ (rest pre : List YouTubeComment),
    loadCommentsLoop oracle (pre ++ rest) (pre.map (analyzedItem oracle)) rest =
      (List.range rest.length).map fun i =>
        snapshotAt oracle (pre ++ rest) (pre.length + i + 1) := by
  intro rest
  induction rest with
  | nil => intro pre; rfl
  | cons c cs ih =>
    intro pre
    have hdone : pre.map (analyzedItem oracle) ++ [analyzedItem oracle c] =
        (pre ++ [c]).map (analyzedItem oracle) := by simp
    have hall : pre ++ c :: cs = (pre ++ [c]) ++ cs := by simp
    simp only [loadCommentsLoop, hdone]
    rw [hall, ih (pre ++ [c]), List.length_cons, List.range_succ_eq_map,
      List.map_cons, List.map_map]
    congr 1
    · have hlen : ((pre ++ [c]).map (analyzedItem oracle)).length =
          pre.length + 0 + 1 := by simp
      have htake : ((pre ++ [c]) ++ cs).take (pre.length + 0 + 1) = pre ++ [c] := by
        have : pre.length + 0 + 1 = (pre ++ [c]).length := by simp
        rw [this, List.take_left]
      rw [snapshotAt, htake, hlen]
    · apply List.map_congr_left
      intro i _
      have hidx : (pre ++ [c]).length + i + 1 = pre.length + (i + 1) + 1 := by
        simp; omega
      simp only [Function.comp_apply, hidx]

/-- C3: within one run of the analysis loop over `n` fetched comments the
loop emits exactly `n` snapshots; the `k`-th (0-based) in-loop snapshot
has comments `0..k` carrying their completed classification results with
`isAnalyzing = false` and comments `k+1..n-1` marked `isAnalyzing = true`
with no score; the analyzed leading segment lists the comments in input order, each
classified with its own outcome; and the last snapshot has every item
analyzed, none left in the analyzing state. -/
theorem loadComments_progress (oracle : String → Except Unit ℚ)
    (comments : List YouTubeComment) :
    (loadCommentsProgress oracle comments).length = comments.length ∧
    (∀ k, k < comments.length →
      (loadCommentsProgress oracle comments).getD k [] =
        (comments.take (k + 1)).map (analyzedItem oracle) ++
        (comments.drop (k + 1)).map pendingItem) ∧
    (∀ c, (analyzedItem oracle c).isAnalyzing = false ∧
      (analyzedItem oracle c).isToxic =
        (checkToxicityWithModel (oracle c.text) c.text).isToxic ∧
      (analyzedItem oracle c).toxicityScore =
        some (checkToxicityWithModel (oracle c.text) c.text).toxicityScore ∧
      (pendingItem c).isAnalyzing = true ∧
      (pendingItem c).toxicityScore = none) ∧
    (comments ≠ [] →
      (loadCommentsProgress oracle comments).getD (comments.length - 1) [] =
        comments.map (analyzedItem oracle)) := by
  have hbase := loadCommentsLoop_eq oracle comments []
  simp only [List.nil_append, List.map_nil, List.length_nil, Nat.zero_add] at hbase
  have hprog : loadCommentsProgress oracle comments =
      (List.range comments.length).map fun i => snapshotAt oracle comments (i + 1) := by
    simpa [loadCommentsProgress] using hbase
  have hget : ∀ k, k < comments.length →
      (loadCommentsProgress oracle comments).getD k [] =
        snapshotAt oracle comments (k + 1) := by
    intro k hk
    rw [hprog]
    simp [List.getD, List.getElem?_map, List.getElem?_range hk]
  refine ⟨by rw [hprog]; simp, ?_, ?_, ?_⟩
  · intro k hk
    rw [hget k hk, snapshotAt]
  · intro c
    exact ⟨rfl, rfl, rfl, rfl, rfl⟩
  · intro hne
    have hpos : 0 < comments.length := List.length_pos.mpr hne
    have h1 : comments.length - 1 + 1 = comments.length := by omega
    rw [hget (comments.length - 1) (by omega), snapshotAt, h1]
    simp

/-- A concrete fetched comment for evaluating the batch analyzer. -/
def demoComment1 : YouTubeComment where
  id := "c1"
  text := "hello there"
  author := "a1"
  publishedAt := "2024-01-01"
  likeCount := 3

/-- A second concrete fetched comment for evaluating the batch analyzer. -/
def demoComment2 : YouTubeComment where
  id := "c2"
  text := "you are terrible"
  author := "a2"
  publishedAt := "2024-01-02"
  likeCount := 0

/-- Concrete comments for evaluating the batch analyzer. -/
def demoComments : List YouTubeComment := [demoComment1, demoComment2]

/-- Concrete per-text model outcomes for evaluating the batch analyzer:
the first comment gets a genuine score and the second a rejection. -/
def demoOracle : String → Except Unit ℚ :=
  fun text => if text = "hello there" then .ok 10 else .error ()

/-- C3 witness: on a concrete two-comment batch, the first in-loop
snapshot has comment 0 analyzed and comment 1 still pending. -/
theorem loadComments_progress_witness :
    (loadCommentsProgress demoOracle demoComments).getD 0 [] =
      (demoComments.take 1).map (analyzedItem demoOracle) ++
      (demoComments.drop 1).map pendingItem :=
  (loadComments_progress demoOracle demoComments).2.1 0 (by decide)

theorem loadCommentsLoop_pending (oracle : String → Except Unit ℚ)
    (all : List YouTubeComment) :
    ∀ (rest : List YouTubeComment) (done : List AnalyzedComment),
    (∀ a ∈ done, a.isAnalyzing = false) →
    ∀ snap ∈ loadCommentsLoop oracle all done rest, ∀ a ∈ snap,
      a.isAnalyzing = true → a.isToxic = false ∧ a.toxicityScore = none := by
  intro rest
  induction rest with
  | nil =>
    intro done hdone snap hsnap
    simp [loadCommentsLoop] at hsnap
  | cons c cs ih =>
    intro done hdone snap hsnap a ha htrue
    have hdone2 : ∀ a ∈ done ++ [analyzedItem oracle c], a.isAnalyzing = false := by
      intro a ha
      rcases List.mem_append.mp ha with h | h
      · exact hdone a h
      · simp only [List.mem_singleton] at h
        subst h
        rfl
    simp only [loadCommentsLoop, List.mem_cons] at hsnap
    rcases hsnap with rfl | hsnap
    · rcases List.mem_append.mp ha with h | h
      · exact absurd htrue (by simp [hdone2 a h])
      · rcases List.mem_map.mp h with ⟨c', _, rfl⟩
        exact ⟨rfl, rfl⟩
    · exact ih _ hdone2 snap hsnap a ha htrue

/-- C10: in every state update emitted by `loadComments` — the initial
one marking the whole batch as analyzing included — every item that is
still marked `isAnalyzing = true` is reported with `isToxic = false` (and
no score), so unprocessed items appear non-toxic until their own
classification completes. -/
theorem loadComments_pending_invariant (oracle : String → Except Unit ℚ)
    (comments : List YouTubeComment) :
    ∀ snap ∈ loadCommentsEmits oracle comments, ∀ a ∈ snap,
      a.isAnalyzing = true → a.isToxic = false ∧ a.toxicityScore = none := by
  intro snap hsnap a ha htrue
  simp only [loadCommentsEmits, List.mem_cons] at hsnap
  rcases hsnap with rfl | hsnap
  · rcases List.mem_map.mp ha with ⟨c, _, rfl⟩
    exact ⟨rfl, rfl⟩
  · exact loadCommentsLoop_pending oracle comments comments []
      (by intro a ha; simp at ha) snap hsnap a ha htrue

/-- C10 witness: in the initial snapshot of a concrete batch, a pending
item is reported non-toxic with no score. -/
theorem loadComments_pending_invariant_witness :
    (pendingItem demoComment1).isToxic = false ∧
    (pendingItem demoComment1).toxicityScore = none :=
  loadComments_pending_invariant demoOracle demoComments
    (demoComments.map pendingItem) (List.mem_cons_self _ _)
    (pendingItem demoComment1) (by simp [demoComments]) rfl

